import Mathlib

/-!
Verification of the aether timeline model and frame compositing engine.

The Rust sources are shallowly embedded:
* `Aether.Engine` models `src-tauri/crates/aether_core/src/engine/timeline.rs`
  (f64 seconds are modelled as exact rationals `ℚ`).
* `Aether.Editing` models `src-tauri/crates/aether_core/src/engine/editing/timeline.rs`
  (i64 nanoseconds are modelled as `ℤ`).
* `Aether.Render` models `src-tauri/crates/aether_core/src/engine/timeline_renderer.rs`
  together with the bounds checks of `video_decoder.rs::seek`.
-/

set_option autoImplicit false

/-- Decidable equality on `Except`, so that concrete runs of the fallible
operations can be settled by `decide`. -/
instance exceptDecEq {ε α : Type} [DecidableEq ε] [DecidableEq α] :
    DecidableEq (Except ε α) := fun x y =>
  match x, y with
  | .ok a, .ok b =>
    if h : a = b then .isTrue (by rw [h]) else
      .isFalse (by intro hc; cases hc; exact h rfl)
  | .ok a, .error f => .isFalse (by intro hc; cases hc)
  | .error e, .ok b => .isFalse (by intro hc; cases hc)
  | .error e, .error f =>
    if h : e = f then .isTrue (by rw [h]) else
      .isFalse (by intro hc; cases hc; exact h rfl)

namespace Aether

namespace Engine

/-- `TimelineError` from engine/timeline.rs. -/
inductive TimelineError where
  | invalidTrack (msg : String)
  | invalidClip (msg : String)
  | invalidTime (msg : String)
  | operationError (msg : String)
  deriving DecidableEq

/-- `ClipType` from engine/timeline.rs. -/
inductive ClipType where
  | video
  | audio
  | image
  | text
  | effect
  deriving DecidableEq

/-- `Clip` from engine/timeline.rs; `f64` seconds become `ℚ`. -/
structure Clip where
  id : String
  clip_type : ClipType
  start_time : ℚ
  duration : ℚ
  source_path : Option String := none
  properties : List (String × String) := []
  deriving DecidableEq

/-- `Clip::end_time`. -/
def Clip.end_time (c : Clip) : ℚ := c.start_time + c.duration

/-- `Clip::contains_time`: `time >= start_time && time < end_time`. -/
def Clip.contains_time (c : Clip) (time : ℚ) : Bool :=
  decide (c.start_time ≤ time) && decide (time < c.end_time)

/-- `Track` from engine/timeline.rs. -/
structure Track where
  id : String
  name : String
  clips : List Clip := []
  is_muted : Bool := false
  is_locked : Bool := false
  deriving DecidableEq

/-- The overlap test performed inside `Track::add_clip` (lines 100–107):
the candidate is rejected when its `start_time` lies inside an existing
same-type clip's interval, or its `end_time` lies in `(start, end]` of one. -/
def Track.rejects (existing c : Clip) : Bool :=
  decide (existing.clip_type = c.clip_type) &&
    ((decide (existing.start_time ≤ c.start_time) && decide (c.start_time < existing.end_time)) ||
     (decide (existing.start_time < c.end_time) && decide (c.end_time ≤ existing.end_time)))

/-- `Track::add_clip`: scan for an offending existing clip, else push. -/
def Track.add_clip (t : Track) (c : Clip) : Except TimelineError Track :=
  match t.clips.find? (fun existing => Track.rejects existing c) with
  | some existing =>
      .error (.operationError
        ("Clip overlaps with existing clip " ++ existing.id ++ " of the same type"))
  | none => .ok { t with clips := t.clips ++ [c] }

/-- `Track::remove_clip`. -/
def Track.remove_clip (t : Track) (clip_id : String) : Except TimelineError (Clip × Track) :=
  match t.clips.find? (fun c => c.id == clip_id) with
  | some c => .ok (c, { t with clips := t.clips.filter (fun d => d.id != clip_id) })
  | none => .error (.invalidClip ("Clip with id " ++ clip_id ++ " not found"))

/-- `Track::clips_at_time`. -/
def Track.clips_at_time (t : Track) (time : ℚ) : List Clip :=
  t.clips.filter (fun c => c.contains_time time)

/-- `TimelineConfig` from engine/timeline.rs. -/
structure TimelineConfig where
  fps : ℕ := 30
  duration : ℚ := 60
  deriving DecidableEq

/-- `Timeline` from engine/timeline.rs; the `HashMap<String, Track>` becomes an
association list, the playback mutex state is omitted (not needed by any claim). -/
structure Timeline where
  config : TimelineConfig := {}
  tracks : List (String × Track) := []
  current_time : ℚ := 0
  deriving DecidableEq

/-- `Timeline::add_track` (lines 172–181): reject a duplicate id, else insert. -/
def Timeline.add_track (tl : Timeline) (track : Track) : Except TimelineError Timeline :=
  if tl.tracks.any (fun p => p.1 == track.id) then
    .error (.invalidTrack ("Track with id " ++ track.id ++ " already exists"))
  else
    .ok { tl with tracks := tl.tracks ++ [(track.id, track)] }

/-- `Timeline::active_clips` (lines 277–290): for each unmuted track, the clips
containing `current_time`; tracks with no such clip are omitted. -/
def Timeline.active_clips (tl : Timeline) : List (String × List Clip) :=
  tl.tracks.filterMap (fun p =>
    if p.2.is_muted then none
    else
      let clips := p.2.clips_at_time tl.current_time
      if clips.isEmpty then none else some (p.1, clips))

end Engine

namespace Editing

/-- The variants of `EditingError` (editing/types.rs) reachable from the
timeline operations. -/
inductive EditingError where
  | notReady
  | invalidParameter (msg : String)
  | timelineError (msg : String)
  deriving DecidableEq

/-- `TrackType` from editing/types.rs. -/
inductive TrackType where
  | video
  | audio
  deriving DecidableEq

/-- `TimelineEffect` from editing/timeline.rs (the GES handle is external state
and is omitted; the bookkeeping fields are kept). -/
structure TimelineEffect where
  id : String
  name : String
  parameters : List (String × String) := []
  deriving DecidableEq

/-- `TimelineClip` from editing/timeline.rs; `i64` times become `ℤ`. -/
structure TimelineClip where
  id : String
  name : String
  track_type : TrackType
  start_time : ℤ
  duration : ℤ
  in_point : ℤ
  effects : List TimelineEffect := []
  deriving DecidableEq

/-- `Timeline` from editing/timeline.rs.  `ges_timeline : Option<ges::Timeline>`
is modelled by the flag `has_ges` (`is_some`); the clip `HashMap` becomes an
association list with `HashMap::insert` semantics (`insertClip`). -/
structure Timeline where
  has_ges : Bool := true
  clips : List (String × TimelineClip) := []
  duration : ℤ := 0
  deriving DecidableEq

/-- `HashMap::insert`: replace the entry with the same key, else append. -/
def insertClip (clips : List (String × TimelineClip)) (key : String) (c : TimelineClip) :
    List (String × TimelineClip) :=
  if clips.any (fun p => p.1 == key) then
    clips.map (fun p => if p.1 == key then (key, c) else p)
  else
    clips ++ [(key, c)]

/-- `HashMap::get`. -/
def Timeline.getClip (tl : Timeline) (clip_id : String) : Option TimelineClip :=
  (tl.clips.find? (fun p => p.1 == clip_id)).map Prod.snd

/-- The maximum clip end (`start_time + duration`) over an entry list,
starting from 0 — the accumulator loop of `Timeline::update_duration`. -/
def maxEnd (clips : List (String × TimelineClip)) : ℤ :=
  clips.foldl
    (fun m p => if p.2.start_time + p.2.duration > m then p.2.start_time + p.2.duration else m) 0

/-- `Timeline::update_duration` (lines 249–260): recompute the maximum clip
end over all clips, starting from 0. -/
def Timeline.update_duration (tl : Timeline) : Timeline :=
  { tl with duration := maxEnd tl.clips }

/-- `Timeline::add_clip` (lines 84–131).  The GES asset/layer interactions are
external effects; the bookkeeping is: register the clip under a fresh
length-based id and raise `duration` to the clip end when it exceeds it. -/
def Timeline.add_clip (tl : Timeline) (uri : String) (track_type : TrackType)
    (start_time duration in_point : ℤ) : Except EditingError (Timeline × TimelineClip) :=
  if tl.has_ges = false then .error .notReady
  else
    let clip_id := "clip_" ++ toString tl.clips.length
    let timeline_clip : TimelineClip :=
      { id := clip_id, name := uri, track_type := track_type,
        start_time := start_time, duration := duration, in_point := in_point }
    let clips := insertClip tl.clips clip_id timeline_clip
    let clip_end := start_time + duration
    let d := if clip_end > tl.duration then clip_end else tl.duration
    .ok ({ tl with clips := clips, duration := d }, timeline_clip)

/-- `Timeline::move_clip` (lines 133–147): set the clip's `start_time`; the
timeline `duration` is only *raised* to the moved clip's end (never
recomputed downward). -/
def Timeline.move_clip (tl : Timeline) (clip_id : String) (new_start_time : ℤ) :
    Except EditingError Timeline :=
  match tl.getClip clip_id with
  | none => .error (.invalidParameter ("Clip not found: " ++ clip_id))
  | some clip =>
    let clips := tl.clips.map (fun p =>
      if p.1 == clip_id then (p.1, { p.2 with start_time := new_start_time }) else p)
    let clip_end := new_start_time + clip.duration
    let d := if clip_end > tl.duration then clip_end else tl.duration
    .ok { tl with clips := clips, duration := d }

/-- `Timeline::trim_clip` (lines 149–160): set the clip's `duration`
unconditionally (no positivity check appears in the source), then
`update_duration`. -/
def Timeline.trim_clip (tl : Timeline) (clip_id : String) (new_duration : ℤ) :
    Except EditingError Timeline :=
  match tl.getClip clip_id with
  | none => .error (.invalidParameter ("Clip not found: " ++ clip_id))
  | some _ =>
    let clips := tl.clips.map (fun p =>
      if p.1 == clip_id then (p.1, { p.2 with duration := new_duration }) else p)
    .ok (Timeline.update_duration { tl with clips := clips })

/-- `Timeline::split_clip` (lines 162–196): reject a split position not strictly
inside the clip; otherwise shrink the original to `[start, position)` and insert
a fresh right clip `[position, end)` with shifted `in_point`. -/
def Timeline.split_clip (tl : Timeline) (clip_id : String) (position : ℤ) :
    Except EditingError (Timeline × String) :=
  match tl.getClip clip_id with
  | none => .error (.invalidParameter ("Clip not found: " ++ clip_id))
  | some clip =>
    if position ≤ clip.start_time ∨ position ≥ clip.start_time + clip.duration then
      .error (.invalidParameter
        ("Split position " ++ toString position ++ " is outside clip bounds"))
    else
      let relative_position := position - clip.start_time
      let right_clip_id := "clip_" ++ toString tl.clips.length
      let right_timeline_clip : TimelineClip :=
        { id := right_clip_id, name := clip.name ++ "_right",
          track_type := clip.track_type, start_time := position,
          duration := clip.duration - relative_position,
          in_point := clip.in_point + relative_position }
      let clips := tl.clips.map (fun p =>
        if p.1 == clip_id then (p.1, { p.2 with duration := relative_position }) else p)
      let clips := insertClip clips right_clip_id right_timeline_clip
      .ok ({ tl with clips := clips }, right_clip_id)

/-- `Timeline::remove_clip` (lines 219–233): the GES layer removal is an
external effect; remove the map entry, then `update_duration`. -/
def Timeline.remove_clip (tl : Timeline) (clip_id : String) : Except EditingError Timeline :=
  match tl.getClip clip_id with
  | none => .error (.invalidParameter ("Clip not found: " ++ clip_id))
  | some _ =>
    let clips := tl.clips.filter (fun p => p.1 != clip_id)
    .ok (Timeline.update_duration { tl with clips := clips })

end Editing

namespace Render

/-- The `VideoDecoderError` variants reachable from `VideoDecoder::seek`. -/
inductive VideoDecoderError where
  | initError (msg : String)
  | decodingError (msg : String)
  deriving DecidableEq

/-- The part of `MediaInfo` consulted by `VideoDecoder::seek`. -/
structure MediaInfo where
  path : String
  duration : ℚ
  deriving DecidableEq

/-- The decoder state consulted by `VideoDecoder::seek` (the FFmpeg format
context is external state: once the guards pass, the repositioning itself is
modelled as succeeding). -/
structure VideoDecoder where
  is_init : Bool
  media_info : Option MediaInfo
  deriving DecidableEq

/-- `VideoDecoder::seek` (video_decoder.rs lines 650–663): fails unless the
decoder is open, and fails with `DecodingError` when `time_sec` is outside the
*media* bounds `[0, media.duration]`.  No other time guard exists. -/
def VideoDecoder.seek (d : VideoDecoder) (time_sec : ℚ) : Except VideoDecoderError Unit :=
  if d.is_init = false then
    .error (.initError "Decoder not ready")
  else
    match d.media_info with
    | none => .error (.initError "No media info available")
    | some media_info =>
      if time_sec < 0 ∨ time_sec > media_info.duration then
        .error (.decodingError ("Seek time " ++ toString time_sec ++ " is outside media bounds"))
      else
        .ok ()

/-- `TimelineRendererError` from timeline_renderer.rs. -/
inductive TimelineRendererError where
  | timelineError (e : Engine.TimelineError)
  | rendererError (msg : String)
  | decoderError (e : VideoDecoderError)
  | compositionError (msg : String)
  | resourceError (msg : String)
  deriving DecidableEq

/-- `ClipRenderer` (timeline_renderer.rs lines 72–123): one decoder plus the
clip's trim window.  `out_point` is stored but — as in the source — never
consulted by `seek_to_time`. -/
structure ClipRenderer where
  decoder : VideoDecoder
  clip_id : String
  source_path : String
  in_point : ℚ
  out_point : ℚ
  deriving DecidableEq

/-- `ClipRenderer::seek_to_time` (lines 103–108): compute
`source_time = in_point + (timeline_time - clip_start_time)` and delegate to
`VideoDecoder::seek` unconditionally. -/
def ClipRenderer.seek_to_time (cr : ClipRenderer) (timeline_time clip_start_time : ℚ) :
    Except TimelineRendererError Unit :=
  let source_time := cr.in_point + (timeline_time - clip_start_time)
  match cr.decoder.seek source_time with
  | .ok () => .ok ()
  | .error e => .error (.decoderError e)

/-- The fields of a decoded `VideoFrame` consumed by
`TimelineRenderer::composite_frame`: dimensions and an RGBA byte buffer. -/
structure VideoFrame where
  width : ℕ
  height : ℕ
  data : List ℕ
  deriving DecidableEq

/-- `Frame` from renderer.rs. -/
structure Frame where
  data : List ℕ
  width : ℕ
  height : ℕ
  timestamp : ℚ
  deriving DecidableEq

/-- `TimelineRendererConfig`; `background_color : [u8; 4]` becomes a 4-byte list. -/
structure TimelineRendererConfig where
  width : ℕ := 1920
  height : ℕ := 1080
  fps : ℚ := 30
  background_color : List ℕ := [0, 0, 0, 255]
  cache_size : ℕ := 30
  deriving DecidableEq

/-- Byte read `buf[k]` (reads in the source are always guarded in-bounds). -/
def byteAt (l : List ℕ) (k : ℕ) : ℕ := (l.get? k).getD 0

/-- The per-channel alpha blend of `composite_frame`:
`(1 - a/255) * o + (a/255) * i`, truncated to an integer — written over `ℕ`
as `((255 - a) * o + a * i) / 255` (the `f32` round-trip of the source is
modelled as exact arithmetic). -/
def blend (o i a : ℕ) : ℕ := ((255 - a) * o + a * i) / 255

/-- One iteration of the inner `x` loop of `composite_frame` (lines 256–270):
guarded writes of the three blended color channels and an opaque alpha. -/
def compositeCell (cfg : TimelineRendererConfig) (input : VideoFrame)
    (yOff xOff y x : ℕ) (out : List ℕ) : List ℕ :=
  let inPos := (y * input.width + x) * 4
  let outPos := ((y + yOff) * cfg.width + (x + xOff)) * 4
  if outPos + 3 < out.length ∧ inPos + 3 < input.data.length then
    let a := byteAt input.data (inPos + 3)
    let out1 := out.set outPos (blend (byteAt out outPos) (byteAt input.data inPos) a)
    let out2 := out1.set (outPos + 1)
      (blend (byteAt out1 (outPos + 1)) (byteAt input.data (inPos + 1)) a)
    let out3 := out2.set (outPos + 2)
      (blend (byteAt out2 (outPos + 2)) (byteAt input.data (inPos + 2)) a)
    out3.set (outPos + 3) 255
  else out

/-- The inner `x` loop: process cells `x = 0, …, n-1` of row `y` in order. -/
def compositeRow (cfg : TimelineRendererConfig) (input : VideoFrame)
    (yOff xOff y : ℕ) : ℕ → List ℕ → List ℕ
  | 0, out => out
  | n + 1, out => compositeCell cfg input yOff xOff y n (compositeRow cfg input yOff xOff y n out)

/-- The outer `y` loop: process rows `y = 0, …, n-1` in order, each over
`min input.width cfg.width` cells. -/
def compositeRows (cfg : TimelineRendererConfig) (input : VideoFrame)
    (yOff xOff : ℕ) : ℕ → List ℕ → List ℕ
  | 0, out => out
  | n + 1, out =>
    compositeRow cfg input yOff xOff n (min input.width cfg.width)
      (compositeRows cfg input yOff xOff n out)

/-- The horizontal placement offset of `composite_frame` (line 252). -/
def xOffOf (cfg : TimelineRendererConfig) (input : VideoFrame) : ℕ :=
  if cfg.width > input.width then (cfg.width - input.width) / 2 else 0

/-- The vertical placement offset of `composite_frame` (line 253). -/
def yOffOf (cfg : TimelineRendererConfig) (input : VideoFrame) : ℕ :=
  if cfg.height > input.height then (cfg.height - input.height) / 2 else 0

/-- `TimelineRenderer::composite_frame` (lines 242–274): center the incoming
frame (when the output is larger), clip to the output bounds, and alpha-blend
pixel by pixel. -/
def composite_frame (cfg : TimelineRendererConfig) (out : List ℕ) (input : VideoFrame) :
    List ℕ :=
  compositeRows cfg input (yOffOf cfg input) (xOffOf cfg input)
    (min input.height cfg.height) out

/-- The flat output-buffer index of channel `c` of the output pixel written by
loop iteration `(y, x)`: `out_pos + c` with `out_pos = ((y + yOff) * width + (x + xOff)) * 4`. -/
def outIdx (cfg : TimelineRendererConfig) (yOff xOff y x c : ℕ) : ℕ :=
  ((y + yOff) * cfg.width + (x + xOff)) * 4 + c

/-- The flat input-buffer index of channel `c` of input pixel `(y, x)`:
`in_pos + c` with `in_pos = (y * input.width + x) * 4`. -/
def inIdx (input : VideoFrame) (y x c : ℕ) : ℕ :=
  (y * input.width + x) * 4 + c

/-- The pixel region of the output covered by the placed (centered, clipped)
incoming frame. -/
def placed (cfg : TimelineRendererConfig) (input : VideoFrame) (px py : ℕ) : Prop :=
  xOffOf cfg input ≤ px ∧ px < xOffOf cfg input + min input.width cfg.width ∧
  yOffOf cfg input ≤ py ∧ py < yOffOf cfg input + min input.height cfg.height

/-- The initial output buffer of `render_frame` (lines 199–206): a 4-byte
vector holding the background color, then `resize(width*height*4, 0)`. -/
def initFrameData (cfg : TimelineRendererConfig) : List ℕ :=
  (cfg.background_color ++ List.replicate (cfg.width * cfg.height * 4 - 4) 0).take
    (cfg.width * cfg.height * 4)

/-- `Renderer::render` (renderer.rs lines 872–902): runs the unconditional
post-processing pass over the composited bytes (`apply_post_processing`,
lines 914–941: gamma correction, color grading and vignette with hard-coded
parameters) and wraps the result into a `Frame` stamped with the requested
time.  The per-pixel post-processing math is transcendental `f32` arithmetic
(`powf`, square roots), not exactly representable here; it is abstracted as
the argument `post`, an arbitrary but fixed function of the buffer — for one
renderer configuration the source transform is exactly such a deterministic
function.  Its size guard cannot fire (`render_frame` always hands it a
`width*height*4` buffer). -/
def rendererRender (cfg : TimelineRendererConfig) (post : List ℕ → List ℕ)
    (data : List ℕ) (timestamp : ℚ) : Frame :=
  { data := post data, width := cfg.width, height := cfg.height, timestamp := timestamp }

/-- `TimelineRenderer` state: the `HashMap<String, ClipRenderer>` is modelled by
the set of clip ids holding a renderer (decode behaviour itself is the oracle
argument of `render_frame`), the `HashMap<f64, Frame>` cache by an association
list. -/
structure TimelineRenderer where
  config : TimelineRendererConfig
  timeline : Engine.Timeline
  clip_renderers : List String
  frame_cache : List (ℚ × Frame)
  is_init : Bool
  deriving DecidableEq

/-- Exact-key cache lookup (`frame_cache.get(&time)`). -/
def lookupCache (cache : List (ℚ × Frame)) (time : ℚ) : Option Frame :=
  (cache.find? (fun p => p.1 == time)).map Prod.snd

/-- Cache eviction: drop the entry with the smallest timestamp key. -/
def evictMin (cache : List (ℚ × Frame)) : List (ℚ × Frame) :=
  match cache.foldl (fun acc p => match acc with
    | none => some p.1
    | some m => if p.1 < m then some p.1 else some m) none with
  | none => cache
  | some m => cache.eraseP (fun p => p.1 == m)

/-- The body of the `for clip in clips` loop of `render_frame` (lines 210–223):
each active *video* clip holding a `ClipRenderer` is seeked and decoded — both
fallible steps are abstracted by the oracle `dec` — and a failure propagates by
`?`, aborting the loop.  The ids of decoded clips are logged. -/
def processTrack (r : TimelineRenderer) (dec : ℚ → String → Except TimelineRendererError VideoFrame)
    (time : ℚ) : List Engine.Clip → List ℕ → List String →
    Except TimelineRendererError (List ℕ × List String)
  | [], data, log => .ok (data, log)
  | clip :: rest, data, log =>
    if clip.clip_type = Engine.ClipType.video ∧ clip.id ∈ r.clip_renderers then
      match dec time clip.id with
      | .error e => .error e
      | .ok video_frame =>
        processTrack r dec time rest (composite_frame r.config data video_frame)
          (log ++ [clip.id])
    else
      processTrack r dec time rest data log

/-- The outer `for (track_id, clips) in active_clips` loop of `render_frame`. -/
def processTracks (r : TimelineRenderer)
    (dec : ℚ → String → Except TimelineRendererError VideoFrame) (time : ℚ) :
    List (String × List Engine.Clip) → List ℕ → List String →
    Except TimelineRendererError (List ℕ × List String)
  | [], data, log => .ok (data, log)
  | (_, clips) :: rest, data, log =>
    match processTrack r dec time clips data log with
    | .error e => .error e
    | .ok (data, log) => processTracks r dec time rest data log

/-- `TimelineRenderer::render_frame` (lines 187–240): check the cache first;
on a miss, composite every active video layer over the background buffer
(propagating any decode failure), wrap the result via `Renderer::render`, run
the eviction step — and, exactly as in the source (lines 229–238), never insert
the new frame into the cache.  Besides the frame, the successor state and the
list of decoder invocations are returned. -/
def render_frame (r : TimelineRenderer)
    (dec : ℚ → String → Except TimelineRendererError VideoFrame)
    (post : List ℕ → List ℕ) (time : ℚ) :
    Except TimelineRendererError (Frame × TimelineRenderer × List String) :=
  if r.is_init = false then
    .error (.resourceError "Renderer not ready")
  else
    match lookupCache r.frame_cache time with
    | some frame => .ok (frame, r, [])
    | none =>
      let active := r.timeline.active_clips
      match processTracks r dec time active (initFrameData r.config) [] with
      | .error e => .error e
      | .ok (data, log) =>
        let frame := rendererRender r.config post data time
        let cache :=
          if r.frame_cache.length ≥ r.config.cache_size then evictMin r.frame_cache
          else r.frame_cache
        .ok (frame, { r with frame_cache := cache }, log)

end Render

namespace Ex

/-! Concrete instances used as witnesses and counterexamples. -/

/-- A video clip occupying `[2, 4)`. -/
def clipA : Engine.Clip := { id := "a", clip_type := .video, start_time := 2, duration := 2 }

/-- A video clip occupying `[0, 10)`, strictly containing `clipA`'s interval. -/
def clipB : Engine.Clip := { id := "b", clip_type := .video, start_time := 0, duration := 10 }

/-- A track already holding `clipA`. -/
def track24 : Engine.Track := { id := "t", name := "t", clips := [clipA] }

/-- A timeline holding one track with id `"t"`. -/
def tl10 : Engine.Timeline := { tracks := [("t", track24)] }

/-- A track whose id duplicates the one already in `tl10`. -/
def trackDup : Engine.Track := { id := "t", name := "other" }

/-- A track with a fresh id. -/
def trackNew : Engine.Track := { id := "u", name := "u" }

/-- An unmuted track holding `clipB` = `[0, 10)`. -/
def trackB : Engine.Track := { id := "v", name := "v", clips := [clipB] }

/-- A timeline positioned at time 5 over a track with one clip `[0, 10)`. -/
def tlAt5 : Engine.Timeline := { tracks := [("v", trackB)], current_time := 5 }

/-- An editing clip `[0, 10)` with `in_point = 0`. -/
def eClip0 : Editing.TimelineClip :=
  { id := "clip_0", name := "n", track_type := .video, start_time := 0, duration := 10,
    in_point := 0 }

/-- An editing timeline holding `eClip0`, with consistent duration 10. -/
def eTl : Editing.Timeline := { clips := [("clip_0", eClip0)], duration := 10 }

/-- An editing clip occupying `[5, 10)`. -/
def eClip5 : Editing.TimelineClip :=
  { id := "clip_0", name := "n", track_type := .video, start_time := 5, duration := 5,
    in_point := 0 }

/-- An editing timeline holding only `eClip5`, with consistent duration 10. -/
def eTlMove : Editing.Timeline := { clips := [("clip_0", eClip5)], duration := 10 }

/-- A tiny 2×2 renderer configuration. -/
def rCfg : Render.TimelineRendererConfig :=
  { width := 2, height := 2, background_color := [0, 0, 0, 255], cache_size := 2 }

/-- An open decoder over media of duration 20 s. -/
def decOk : Render.VideoDecoder := { is_init := true, media_info := some { path := "p", duration := 20 } }

/-- A clip renderer with trim window `[2, 5)` (`in_point = 2`, clip duration 3)
over media of duration 20 s. -/
def cr8 : Render.ClipRenderer :=
  { decoder := decOk, clip_id := "a", source_path := "p", in_point := 2, out_point := 5 }

/-- A 1×1 RGBA frame with alpha 128. -/
def vf1 : Render.VideoFrame := { width := 1, height := 1, data := [100, 200, 50, 128] }

/-- An oracle whose decode always succeeds with `vf1`. -/
def decodeAlways : ℚ → String → Except Render.TimelineRendererError Render.VideoFrame :=
  fun _ _ => .ok vf1

/-- An oracle failing exactly on the clip with id `"bad"`. -/
def decodeBad : ℚ → String → Except Render.TimelineRendererError Render.VideoFrame :=
  fun _ id => if id == "bad" then .error (.decoderError (.decodingError "boom")) else .ok vf1

/-- A clip with id `"good"` over `[0, 10)`. -/
def clipGood : Engine.Clip :=
  { id := "good", clip_type := .video, start_time := 0, duration := 10 }

/-- A clip with id `"bad"` over `[0, 10)`. -/
def clipBad : Engine.Clip :=
  { id := "bad", clip_type := .video, start_time := 0, duration := 10 }

/-- A two-track timeline at time 5: a decodable layer and a failing layer. -/
def tl6 : Engine.Timeline :=
  { tracks :=
      [("t1", { id := "t1", name := "t1", clips := [clipGood] }),
       ("t2", { id := "t2", name := "t2", clips := [clipBad] })],
    current_time := 5 }

/-- A renderer over `tl6`, with renderers for both clips and an empty cache. -/
def tr6 : Render.TimelineRenderer :=
  { config := rCfg, timeline := tl6, clip_renderers := ["good", "bad"],
    frame_cache := [], is_init := true }

/-- A single-track timeline at time 5 over the clip `"good"`. -/
def tl7 : Engine.Timeline :=
  { tracks := [("t1", { id := "t1", name := "t1", clips := [clipGood] })], current_time := 5 }

/-- A renderer over `tl7` with one clip renderer and an empty cache. -/
def tr7 : Render.TimelineRenderer :=
  { config := rCfg, timeline := tl7, clip_renderers := ["good"],
    frame_cache := [], is_init := true }

/-- The identity instantiation of the abstracted post-processing transform. -/
def postId : List ℕ → List ℕ := fun data => data

/-- The frame produced by compositing `vf1` once over the background of `rCfg`
(with the identity post-processing instantiation). -/
def frame7 : Render.Frame :=
  Render.rendererRender rCfg postId
    (Render.composite_frame rCfg (Render.initFrameData rCfg) vf1) 5

/-- An editing clip `[0, 10)` registered as `"clip_0"` from source `"u0"`. -/
def eCu0 : Editing.TimelineClip :=
  { id := "clip_0", name := "u0", track_type := .video, start_time := 0, duration := 10,
    in_point := 0 }

/-- An editing clip `[0, 10)` registered as `"clip_1"` from source `"u1"`. -/
def eCu1 : Editing.TimelineClip :=
  { id := "clip_1", name := "u1", track_type := .video, start_time := 0, duration := 10,
    in_point := 0 }

/-- The collision state: one clip left, keyed `"clip_1"`, while `clips.len()`
is 1 — reached by adding `"clip_0"` and `"clip_1"` and removing `"clip_0"`,
so the next length-based id is again `"clip_1"`. -/
def eTlCollide : Editing.Timeline := { clips := [("clip_1", eCu1)], duration := 10 }

/-- The right clip produced by splitting `eCu1` at 4. -/
def eRight1 : Editing.TimelineClip :=
  { id := "clip_1", name := "u1_right", track_type := .video, start_time := 4, duration := 6,
    in_point := 4 }

end Ex

end Aether

open Aether

/-- C10: `Timeline::add_track` fails with `InvalidTrack` exactly when a track
with the same id is already present — in which case no insertion happens, the
error being returned before any state change — and otherwise inserts the track
under its id. -/
theorem add_track_spec (tl : Engine.Timeline) (track : Engine.Track) :
    ((∃ p ∈ tl.tracks, p.1 = track.id) →
      tl.add_track track =
        .error (.invalidTrack ("Track with id " ++ track.id ++ " already exists"))) ∧
    ((∀ p ∈ tl.tracks, p.1 ≠ track.id) →
      tl.add_track track = .ok { tl with tracks := tl.tracks ++ [(track.id, track)] }) := by
  constructor
  · rintro ⟨p, hp, he⟩
    have hany : tl.tracks.any (fun p => p.1 == track.id) = true :=
      List.any_eq_true.mpr ⟨p, hp, by simp [he]⟩
    simp [Engine.Timeline.add_track, hany]
  · intro h
    have hany : tl.tracks.any (fun p => p.1 == track.id) = false := by
      simp only [List.any_eq_false]
      intro p hp
      simp [h p hp]
    simp [Engine.Timeline.add_track, hany]

/-- Witness for C10 at concrete inputs: inserting a duplicate `"t"` fails with
`InvalidTrack`, inserting a fresh `"u"` appends. -/
theorem add_track_spec_witness :
    Ex.tl10.add_track Ex.trackDup =
      .error (.invalidTrack ("Track with id " ++ Ex.trackDup.id ++ " already exists")) ∧
    Ex.tl10.add_track Ex.trackNew =
      .ok { Ex.tl10 with tracks := Ex.tl10.tracks ++ [(Ex.trackNew.id, Ex.trackNew)] } :=
  ⟨(add_track_spec Ex.tl10 Ex.trackDup).1 ⟨("t", Ex.track24), by simp [Ex.tl10], rfl⟩,
   (add_track_spec Ex.tl10 Ex.trackNew).2 (by intro p hp; simp [Ex.tl10] at hp; simp [hp, Ex.trackNew])⟩

section AssocHelpers

variable {α β : Type}

/-- `find?` on a cons whose head satisfies the predicate. -/
theorem findPos (pred : β → Bool) (a : β) (l : List β) (h : pred a = true) :
    (a :: l).find? pred = some a := by
  simp [List.find?, h]

/-- `find?` on a cons whose head fails the predicate. -/
theorem findNeg (pred : β → Bool) (a : β) (l : List β) (h : pred a = false) :
    (a :: l).find? pred = l.find? pred := by
  simp [List.find?, h]

/-- Updating the entry at `key` (by a first-component-preserving map)
commutes with looking `key` up. -/
theorem find?_update_self (l : List (String × α)) (key : String)
    (g : String × α → String × α) (hg : ∀ p, (g p).1 = p.1) :
    (l.map (fun p => if p.1 == key then g p else p)).find? (fun p => p.1 == key) =
      (l.find? (fun p => p.1 == key)).map g := by
  induction l with
  | nil => rfl
  | cons p l ih =>
    simp only [List.map_cons]
    cases hb : (p.1 == key) with
    | true =>
      rw [if_pos rfl,
        findPos (fun q => q.1 == key) (g p)
          (l.map (fun p => if p.1 == key then g p else p)) (by show ((g p).1 == key) = true; rw [hg p]; exact hb),
        findPos (fun q => q.1 == key) p l hb]
      rfl
    | false =>
      rw [if_neg (show ¬(false = true) by simp),
        findNeg (fun q => q.1 == key) p
          (l.map (fun p => if p.1 == key then g p else p)) hb,
        findNeg (fun q => q.1 == key) p l hb, ih]

/-- Updating the entry at `key` leaves lookups of other keys unchanged. -/
theorem find?_update_of_ne (l : List (String × α)) (key k : String)
    (g : String × α → String × α) (hg : ∀ p, (g p).1 = p.1) (h : k ≠ key) :
    (l.map (fun p => if p.1 == key then g p else p)).find? (fun p => p.1 == k) =
      l.find? (fun p => p.1 == k) := by
  induction l with
  | nil => rfl
  | cons p l ih =>
    simp only [List.map_cons]
    cases hb : (p.1 == key) with
    | true =>
      have hp : p.1 = key := by simpa using hb
      have hk : (p.1 == k) = false := by
        refine beq_eq_false_iff_ne.mpr ?_
        rw [hp]
        exact fun hc => h hc.symm
      rw [if_pos rfl,
        findNeg (fun q => q.1 == k) (g p)
          (l.map (fun p => if p.1 == key then g p else p)) (by show ((g p).1 == k) = false; rw [hg p]; exact hk),
        findNeg (fun q => q.1 == k) p l hk, ih]
    | false =>
      rw [if_neg (show ¬(false = true) by simp)]
      cases hk : (p.1 == k) with
      | true =>
        rw [findPos (fun q => q.1 == k) p
            (l.map (fun p => if p.1 == key then g p else p)) hk,
          findPos (fun q => q.1 == k) p l hk]
      | false =>
        rw [findNeg (fun q => q.1 == k) p
            (l.map (fun p => if p.1 == key then g p else p)) hk,
          findNeg (fun q => q.1 == k) p l hk, ih]

/-- A successful lookup in the left part survives an append. -/
theorem find?_append_left (l₁ l₂ : List β) (pred : β → Bool)
    (x : β) (h : l₁.find? pred = some x) :
    (l₁ ++ l₂).find? pred = some x := by
  induction l₁ with
  | nil => cases h
  | cons p l ih =>
    cases hb : pred p with
    | true =>
      rw [findPos pred p l hb] at h
      rw [List.cons_append, findPos pred p _ hb]
      exact h
    | false =>
      rw [findNeg pred p l hb] at h
      rw [List.cons_append, findNeg pred p _ hb]
      exact ih h

/-- When the predicate fails throughout the left part, lookup moves right. -/
theorem find?_append_right (l₁ l₂ : List β) (pred : β → Bool)
    (h : ∀ p ∈ l₁, pred p = false) :
    (l₁ ++ l₂).find? pred = l₂.find? pred := by
  induction l₁ with
  | nil => rfl
  | cons p l ih =>
    rw [List.cons_append, findNeg pred p _ (h p (List.mem_cons_self p l))]
    exact ih (fun q hq => h q (List.mem_cons_of_mem _ hq))

end AssocHelpers

/-- `insertClip` with a key fresh for the list is a plain append. -/
theorem insertClip_fresh (l : List (String × Editing.TimelineClip)) (key : String)
    (c : Editing.TimelineClip) (h : ∀ p ∈ l, p.1 ≠ key) :
    Editing.insertClip l key c = l ++ [(key, c)] := by
  unfold Editing.insertClip
  rw [if_neg]
  simp only [List.any_eq_true, not_exists]
  intro p
  simp only [not_and]
  intro hp
  simp [h p hp]

/-- C1: the overlap check of `Track::add_clip` misses the containment case.
At the failing input — a track holding the video clip `[2, 4)`, adding the
video clip `[0, 10)` whose interval strictly contains it — `add_clip`
*succeeds* and pushes the clip, leaving two same-type clips on one track with
genuinely overlapping intervals (`max` of the starts is below `min` of the
ends), contradicting the documented overlap invariant. -/
theorem add_clip_misses_containment_overlap :
    Ex.track24.add_clip Ex.clipB = .ok { Ex.track24 with clips := [Ex.clipA, Ex.clipB] } ∧
    Ex.clipA.clip_type = Ex.clipB.clip_type ∧
    max Ex.clipA.start_time Ex.clipB.start_time < min Ex.clipA.end_time Ex.clipB.end_time := by
  refine ⟨?_, rfl, ?_⟩
  · norm_num [Engine.Track.add_clip, Engine.Track.rejects, Ex.track24, Ex.clipA, Ex.clipB,
      Engine.Clip.end_time]
  · norm_num [Ex.clipA, Ex.clipB, Engine.Clip.end_time]

/-- C2 (amended): *when the freshly generated right-clip id
`"clip_" ++ toString clips.length` does not collide with an existing clip id*,
`Timeline::split_clip` with `start_time < position < end_time` yields a left
clip `[start_time, position)` (shrunk in place) and a fresh right clip
`[position, end_time)` — the two intervals exactly partition the original, the
durations sum to the original duration, and the right clip's `in_point` is the
original `in_point + (position - start_time)`; a position not strictly inside
the interval is rejected with `InvalidParameter`.  The freshness condition is
not an invariant: after removals the length-based id can collide with the
split clip's own key, and the `HashMap::insert` of the right clip then
replaces the shrunk left clip (see `split_clip_collision_destroys_left`). -/
theorem split_clip_spec (tl : Editing.Timeline) (clip_id : String) (position : ℤ)
    (clip : Editing.TimelineClip)
    (hfind : tl.getClip clip_id = some clip)
    (hfresh : ∀ p ∈ tl.clips, p.1 ≠ "clip_" ++ toString tl.clips.length) :
    ((clip.start_time < position ∧ position < clip.start_time + clip.duration) →
      ∃ tl' left right,
        tl.split_clip clip_id position = .ok (tl', "clip_" ++ toString tl.clips.length) ∧
        tl'.getClip clip_id = some left ∧
        tl'.getClip ("clip_" ++ toString tl.clips.length) = some right ∧
        left.start_time = clip.start_time ∧
        left.start_time + left.duration = position ∧
        right.start_time = position ∧
        right.start_time + right.duration = clip.start_time + clip.duration ∧
        left.duration + right.duration = clip.duration ∧
        right.in_point = clip.in_point + (position - clip.start_time) ∧
        left.in_point = clip.in_point) ∧
    ((position ≤ clip.start_time ∨ clip.start_time + clip.duration ≤ position) →
      ∃ msg, tl.split_clip clip_id position = .error (.invalidParameter msg)) := by
  have hpair : ∃ pr, tl.clips.find? (fun p => p.1 == clip_id) = some pr ∧ pr.2 = clip := by
    unfold Editing.Timeline.getClip at hfind
    cases hf : tl.clips.find? (fun p => p.1 == clip_id) with
    | none => rw [hf] at hfind; cases hfind
    | some pr => rw [hf] at hfind; exact ⟨pr, rfl, by cases hfind; rfl⟩
  obtain ⟨pr, hpr, hpr2⟩ := hpair
  constructor
  · rintro ⟨h1, h2⟩
    unfold Editing.Timeline.split_clip
    rw [hfind]
    dsimp only
    rw [if_neg (by push_neg; omega)]
    refine ⟨_, { clip with duration := position - clip.start_time },
      { id := "clip_" ++ toString tl.clips.length, name := clip.name ++ "_right",
        track_type := clip.track_type, start_time := position,
        duration := clip.duration - (position - clip.start_time),
        in_point := clip.in_point + (position - clip.start_time) },
      rfl, ?_, ?_, rfl,
      (by show clip.start_time + (position - clip.start_time) = position; omega), rfl,
      (by show position + (clip.duration - (position - clip.start_time)) =
        clip.start_time + clip.duration; omega),
      (by show (position - clip.start_time) + (clip.duration - (position - clip.start_time)) =
        clip.duration; omega),
      rfl, rfl⟩
    · show (List.find? (fun p => p.1 == clip_id) (Editing.insertClip
          (tl.clips.map (fun p => if p.1 == clip_id then
            (p.1, { p.2 with duration := position - clip.start_time }) else p))
          ("clip_" ++ toString tl.clips.length)
          { id := "clip_" ++ toString tl.clips.length, name := clip.name ++ "_right",
            track_type := clip.track_type, start_time := position,
            duration := clip.duration - (position - clip.start_time),
            in_point := clip.in_point + (position - clip.start_time) })).map Prod.snd =
        some { clip with duration := position - clip.start_time }
      have hself := find?_update_self tl.clips clip_id
        (fun p => (p.1, { p.2 with duration := position - clip.start_time })) (fun p => rfl)
      rw [hpr] at hself
      simp only [Option.map] at hself
      have hmkeys : ∀ q ∈ tl.clips.map (fun p => if p.1 == clip_id then
          (p.1, { p.2 with duration := position - clip.start_time }) else p),
          q.1 ≠ "clip_" ++ toString tl.clips.length := by
        intro q hq
        obtain ⟨p, hp, hqe⟩ := List.mem_map.mp hq
        have hq1 : q.1 = p.1 := by
          rw [← hqe]
          cases hc : (p.1 == clip_id) <;> simp [hc]
        rw [hq1]
        exact hfresh p hp
      rw [insertClip_fresh _ _ _ hmkeys, find?_append_left _ _ _ _ hself, hpr2]
      rfl
    · show (List.find? (fun p => p.1 == ("clip_" ++ toString tl.clips.length))
          (Editing.insertClip
          (tl.clips.map (fun p => if p.1 == clip_id then
            (p.1, { p.2 with duration := position - clip.start_time }) else p))
          ("clip_" ++ toString tl.clips.length)
          { id := "clip_" ++ toString tl.clips.length, name := clip.name ++ "_right",
            track_type := clip.track_type, start_time := position,
            duration := clip.duration - (position - clip.start_time),
            in_point := clip.in_point + (position - clip.start_time) })).map Prod.snd =
        some { id := "clip_" ++ toString tl.clips.length, name := clip.name ++ "_right",
               track_type := clip.track_type, start_time := position,
               duration := clip.duration - (position - clip.start_time),
               in_point := clip.in_point + (position - clip.start_time) }
      have hmkeys : ∀ q ∈ tl.clips.map (fun p => if p.1 == clip_id then
          (p.1, { p.2 with duration := position - clip.start_time }) else p),
          q.1 ≠ "clip_" ++ toString tl.clips.length := by
        intro q hq
        obtain ⟨p, hp, hqe⟩ := List.mem_map.mp hq
        have hq1 : q.1 = p.1 := by
          rw [← hqe]
          cases hc : (p.1 == clip_id) <;> simp [hc]
        rw [hq1]
        exact hfresh p hp
      rw [insertClip_fresh _ _ _ hmkeys,
        find?_append_right _ _ _ (fun q hq => beq_eq_false_iff_ne.mpr (hmkeys q hq)),
        findPos _ _ _ (by simp)]
      rfl
  · intro h
    refine ⟨"Split position " ++ toString position ++ " is outside clip bounds", ?_⟩
    unfold Editing.Timeline.split_clip
    rw [hfind]
    dsimp only
    rw [if_pos (by omega)]

/-- C2 counterexample: the right-clip id is generated from `clips.len()`, and
after removals it can collide with the split clip's own key.  Reachable run:
`add_clip` twice (keys `"clip_0"`, `"clip_1"`), `remove_clip "clip_0"` — the
map now holds one clip keyed `"clip_1"` with `clips.len() = 1`.  Splitting
`"clip_1"` (interval `[0, 10)`) at position 4 then computes
`right_clip_id = "clip_1"`, and the `HashMap::insert` of the right clip
*replaces* the just-shrunk left clip: the final timeline holds only the right
clip `[4, 10)` and no clip covering `[0, 4)`, so the split does not produce a
left/right partition of the original interval — refuting the claim as stated
for every clip. -/
theorem split_clip_collision_destroys_left :
    Editing.Timeline.add_clip {} "u0" .video 0 10 0 =
      .ok ({ clips := [("clip_0", Ex.eCu0)], duration := 10 }, Ex.eCu0) ∧
    Editing.Timeline.add_clip { clips := [("clip_0", Ex.eCu0)], duration := 10 }
        "u1" .video 0 10 0 =
      .ok ({ clips := [("clip_0", Ex.eCu0), ("clip_1", Ex.eCu1)], duration := 10 }, Ex.eCu1) ∧
    Editing.Timeline.remove_clip
        { clips := [("clip_0", Ex.eCu0), ("clip_1", Ex.eCu1)], duration := 10 } "clip_0" =
      .ok Ex.eTlCollide ∧
    Ex.eTlCollide.getClip "clip_1" = some Ex.eCu1 ∧
    Ex.eCu1.start_time = 0 ∧ Ex.eCu1.duration = 10 ∧
    Ex.eTlCollide.split_clip "clip_1" 4 =
      .ok ({ clips := [("clip_1", Ex.eRight1)], duration := 10 }, "clip_1") ∧
    Ex.eRight1.start_time = 4 ∧ Ex.eRight1.duration = 6 ∧
    (∀ p ∈ ({ clips := [("clip_1", Ex.eRight1)], duration := 10 } :
        Editing.Timeline).clips, ¬(p.2.start_time = 0 ∧ p.2.duration = 4)) := by
  refine ⟨by decide, by decide, by decide, by decide, by decide, by decide, by decide,
    by decide, by decide, by decide⟩

/-- Witness for C2 at spec scenario 3: splitting the clip `[0, 10)` with
`in_point = 0` at position 4 produces a left clip of duration 4 and a right
clip `[4, 10)` of duration 6 with `in_point` 4. -/
theorem split_clip_spec_witness :
    ∃ tl' left right,
      Ex.eTl.split_clip "clip_0" 4 = .ok (tl', "clip_" ++ toString Ex.eTl.clips.length) ∧
      tl'.getClip "clip_0" = some left ∧
      tl'.getClip ("clip_" ++ toString Ex.eTl.clips.length) = some right ∧
      left.start_time = Ex.eClip0.start_time ∧
      left.start_time + left.duration = 4 ∧
      right.start_time = 4 ∧
      right.start_time + right.duration = Ex.eClip0.start_time + Ex.eClip0.duration ∧
      left.duration + right.duration = Ex.eClip0.duration ∧
      right.in_point = Ex.eClip0.in_point + (4 - Ex.eClip0.start_time) ∧
      left.in_point = Ex.eClip0.in_point :=
  (split_clip_spec Ex.eTl "clip_0" 4 Ex.eClip0 (by decide) (by decide)).1 (by decide)

/-- C3 (amended): `trim_clip` and `remove_clip` recompute the timeline duration
to the maximum clip end over all remaining clips (via `update_duration`), and
`add_clip` raises it to `max` of the old duration and the new clip's end — but
`move_clip` only ever *raises* the duration to `max` of the old duration and
the moved clip's new end; it never recomputes it downward. -/
theorem duration_bookkeeping (tl : Editing.Timeline) :
    (∀ id d tl', tl.trim_clip id d = .ok tl' → tl'.duration = Editing.maxEnd tl'.clips) ∧
    (∀ id tl', tl.remove_clip id = .ok tl' → tl'.duration = Editing.maxEnd tl'.clips) ∧
    (∀ uri tt s d i tl' c, tl.add_clip uri tt s d i = .ok (tl', c) →
      tl'.duration = max tl.duration (s + d)) ∧
    (∀ id t tl' clip, tl.getClip id = some clip → tl.move_clip id t = .ok tl' →
      tl'.duration = max tl.duration (t + clip.duration)) := by
  refine ⟨?_, ?_, ?_, ?_⟩
  · intro id d tl' h
    unfold Editing.Timeline.trim_clip at h
    cases hf : tl.getClip id with
    | none => rw [hf] at h; cases h
    | some clip =>
      rw [hf] at h
      dsimp only at h
      cases h
      rfl
  · intro id tl' h
    unfold Editing.Timeline.remove_clip at h
    cases hf : tl.getClip id with
    | none => rw [hf] at h; cases h
    | some clip =>
      rw [hf] at h
      dsimp only at h
      cases h
      rfl
  · intro uri tt s d i tl' c h
    unfold Editing.Timeline.add_clip at h
    by_cases hg : tl.has_ges = false
    · rw [if_pos hg] at h; cases h
    · rw [if_neg hg] at h
      dsimp only at h
      cases h
      show (if s + d > tl.duration then s + d else tl.duration) = _
      split <;> omega
  · intro id t tl' clip hfind h
    unfold Editing.Timeline.move_clip at h
    rw [hfind] at h
    dsimp only at h
    cases h
    show (if t + clip.duration > tl.duration then t + clip.duration else tl.duration) = _
    split <;> omega

/-- Witness for C3's amended claim: trimming the clip `[0, 10)` to duration
`-5` recomputes the timeline duration to the maximum end over the clips. -/
theorem duration_bookkeeping_witness :
    ({ clips := [("clip_0", { Ex.eClip0 with duration := -5 })],
        duration := 0 } : Editing.Timeline).duration =
      Editing.maxEnd [("clip_0", { Ex.eClip0 with duration := -5 })] :=
  (duration_bookkeeping Ex.eTl).1 "clip_0" (-5)
    { clips := [("clip_0", { Ex.eClip0 with duration := -5 })], duration := 0 } (by decide)

/-- C3 counterexample: moving the only clip `[5, 10)` of a timeline with
duration 10 down to `[0, 5)` leaves the stored duration at 10 although the
maximum clip end is now 5 — `move_clip` does not recompute the duration
downward, refuting the claim that every mutation re-establishes
`duration = max end_time`. -/
theorem move_clip_keeps_stale_duration :
    Ex.eTlMove.move_clip "clip_0" 0 =
      .ok { clips := [("clip_0", { Ex.eClip5 with start_time := 0 })], duration := 10 } ∧
    Editing.maxEnd [("clip_0", { Ex.eClip5 with start_time := 0 })] = 5 ∧
    (10 : ℤ) ≠ 5 := by
  refine ⟨by decide, by decide, by decide⟩

/-- C4 (amended): `trim_clip` accepts *every* `new_duration` — the source has
no positivity check — and changes only the targeted clip's `duration`: its
`start_time` (along with every other field) is preserved, and all other clips
are untouched. -/
theorem trim_clip_spec (tl : Editing.Timeline) (id : String) (d : ℤ)
    (clip : Editing.TimelineClip) (hfind : tl.getClip id = some clip) :
    ∃ tl', tl.trim_clip id d = .ok tl' ∧
      tl'.getClip id = some { clip with duration := d } ∧
      ({ clip with duration := d } : Editing.TimelineClip).start_time = clip.start_time ∧
      (∀ k, k ≠ id → tl'.getClip k = tl.getClip k) := by
  have hpair : ∃ pr, tl.clips.find? (fun p => p.1 == id) = some pr ∧ pr.2 = clip := by
    unfold Editing.Timeline.getClip at hfind
    cases hf : tl.clips.find? (fun p => p.1 == id) with
    | none => rw [hf] at hfind; cases hfind
    | some pr => rw [hf] at hfind; exact ⟨pr, rfl, by cases hfind; rfl⟩
  obtain ⟨pr, hpr, hpr2⟩ := hpair
  refine ⟨Editing.Timeline.update_duration
      { tl with
        clips := tl.clips.map fun p => if p.1 == id then (p.1, { p.2 with duration := d }) else p },
    ?_, ?_, rfl, ?_⟩
  · unfold Editing.Timeline.trim_clip
    rw [hfind]
  · unfold Editing.Timeline.update_duration Editing.Timeline.getClip
    dsimp only
    have hself := find?_update_self tl.clips id
      (fun p => (p.1, { p.2 with duration := d })) (fun p => rfl)
    rw [hself, hpr]
    simp only [Option.map]
    rw [hpr2]
  · intro k hk
    unfold Editing.Timeline.update_duration Editing.Timeline.getClip
    dsimp only
    rw [find?_update_of_ne tl.clips id k
      (fun p => (p.1, { p.2 with duration := d })) (fun p => rfl) hk]

/-- Witness for C4's amended claim at a concrete non-positive duration:
trimming the clip `[0, 10)` to duration `-5` succeeds and only changes the
duration. -/
theorem trim_clip_spec_witness :
    ∃ tl', Ex.eTl.trim_clip "clip_0" (-5) = .ok tl' ∧
      tl'.getClip "clip_0" = some { Ex.eClip0 with duration := -5 } ∧
      ({ Ex.eClip0 with duration := -5 } : Editing.TimelineClip).start_time =
        Ex.eClip0.start_time ∧
      (∀ k, k ≠ "clip_0" → tl'.getClip k = Ex.eTl.getClip k) :=
  trim_clip_spec Ex.eTl "clip_0" (-5) Ex.eClip0 (by decide)

/-- C4 counterexample: `trim_clip` with `new_duration = -5 ≤ 0` is *not*
rejected — it succeeds and overwrites the clip's duration, refuting the claim
that non-positive durations are rejected with the clip left unchanged. -/
theorem trim_clip_accepts_nonpositive :
    Ex.eTl.trim_clip "clip_0" (-5) =
      .ok { clips := [("clip_0", { Ex.eClip0 with duration := -5 })], duration := 0 } ∧
    ((-5 : ℤ) ≤ 0) ∧
    ({ Ex.eClip0 with duration := -5 } : Editing.TimelineClip) ≠ Ex.eClip0 := by
  refine ⟨by decide, by decide, by decide⟩

/-- In a list with nodup keys, a key determines its value. -/
theorem pair_key_unique {α : Type} {l : List (String × α)} (h : (l.map Prod.fst).Nodup)
    {k : String} {a b : α} (ha : (k, a) ∈ l) (hb : (k, b) ∈ l) : a = b := by
  induction l with
  | nil => cases ha
  | cons p t ih =>
    rw [List.map_cons, List.nodup_cons] at h
    cases List.mem_cons.mp ha with
    | inl hpa =>
      cases List.mem_cons.mp hb with
      | inl hpb => rw [← hpa] at hpb; exact (Prod.mk.injEq _ _ _ _ ▸ hpb).2.symm
      | inr hpb =>
        exfalso
        exact h.1 (List.mem_map.mpr ⟨(k, b), hpb, by rw [← hpa]⟩)
    | inr hpa =>
      cases List.mem_cons.mp hb with
      | inl hpb =>
        exfalso
        exact h.1 (List.mem_map.mpr ⟨(k, a), hpa, by rw [← hpb]⟩)
      | inr hpb => exact ih h.2 hpa hpb

/-- C5: with distinct track ids, the active-clip query returns a clip exactly
when its track is unmuted and `start_time ≤ current_time < end_time` — the
half-open interval containment of `Clip::contains_time`. -/
theorem active_clips_spec (tl : Engine.Timeline) (tid : String) (tr : Engine.Track)
    (c : Engine.Clip)
    (hnodup : (tl.tracks.map Prod.fst).Nodup)
    (htr : (tid, tr) ∈ tl.tracks) (hc : c ∈ tr.clips) :
    (∃ cs, (tid, cs) ∈ tl.active_clips ∧ c ∈ cs) ↔
      (tr.is_muted = false ∧ c.start_time ≤ tl.current_time ∧
        tl.current_time < c.end_time) := by
  constructor
  · rintro ⟨cs, hmem, hcs⟩
    unfold Engine.Timeline.active_clips at hmem
    obtain ⟨p, hp, hpe⟩ := List.mem_filterMap.mp hmem
    by_cases hm : p.2.is_muted
    · rw [if_pos hm] at hpe; cases hpe
    · rw [if_neg hm] at hpe
      dsimp only at hpe
      by_cases he : (p.2.clips_at_time tl.current_time).isEmpty
      · rw [if_pos he] at hpe; cases hpe
      · rw [if_neg he] at hpe
        have hfst : p.1 = tid := (Prod.mk.injEq _ _ _ _ ▸ (Option.some.inj hpe)).1
        have hsnd : cs = p.2.clips_at_time tl.current_time :=
          ((Prod.mk.injEq _ _ _ _ ▸ (Option.some.inj hpe)).2).symm
        have hp' : (tid, p.2) ∈ tl.tracks := by rw [← hfst]; exact hp
        have htreq : p.2 = tr := pair_key_unique hnodup hp' htr
        rw [hsnd, htreq] at hcs
        have hmem2 := List.mem_filter.mp hcs
        have hct := hmem2.2
        unfold Engine.Clip.contains_time at hct
        rw [Bool.and_eq_true, decide_eq_true_eq, decide_eq_true_eq] at hct
        refine ⟨?_, hct.1, hct.2⟩
        rw [htreq] at hm
        exact Bool.not_eq_true _ ▸ (by simpa using hm)
  · rintro ⟨hm, h1, h2⟩
    have hcf : c ∈ tr.clips_at_time tl.current_time := by
      refine List.mem_filter.mpr ⟨hc, ?_⟩
      unfold Engine.Clip.contains_time
      rw [Bool.and_eq_true, decide_eq_true_eq, decide_eq_true_eq]
      exact ⟨h1, h2⟩
    refine ⟨tr.clips_at_time tl.current_time, ?_, hcf⟩
    unfold Engine.Timeline.active_clips
    refine List.mem_filterMap.mpr ⟨(tid, tr), htr, ?_⟩
    rw [if_neg (by simp [hm])]
    dsimp only
    rw [if_neg (by simpa [List.isEmpty_iff] using List.ne_nil_of_mem hcf)]

/-- Witness for C5 at spec scenario 1: on a timeline positioned at time 5 over
an unmuted track holding the clip `[0, 10)`, the active-clip query returns
that clip. -/
theorem active_clips_spec_witness :
    ∃ cs, ("v", cs) ∈ Ex.tlAt5.active_clips ∧ Ex.clipB ∈ cs :=
  (active_clips_spec Ex.tlAt5 "v" Ex.trackB Ex.clipB (by simp [Ex.tlAt5])
      (by simp [Ex.tlAt5]) (by simp [Ex.trackB])).mpr
    ⟨rfl, by norm_num [Ex.clipB, Ex.tlAt5],
      by norm_num [Ex.clipB, Ex.tlAt5, Engine.Clip.end_time]⟩

/-- C8 (amended): `ClipRenderer::seek_to_time` computes
`source_time = in_point + (t - clip_start_time)` and always delegates it to
`VideoDecoder::seek`; the only guard applied is the decoder's *media-bounds*
check `0 ≤ source_time ≤ media.duration` — the clip's trimmed window
`[in_point, in_point + duration)` is never consulted. -/
theorem seek_to_time_spec (cr : Render.ClipRenderer) (t cs : ℚ) (mi : Render.MediaInfo)
    (hinit : cr.decoder.is_init = true) (hmi : cr.decoder.media_info = some mi) :
    cr.seek_to_time t cs = .ok () ↔
      (0 ≤ cr.in_point + (t - cs) ∧ cr.in_point + (t - cs) ≤ mi.duration) := by
  unfold Render.ClipRenderer.seek_to_time Render.VideoDecoder.seek
  rw [hinit, hmi]
  dsimp only
  rw [if_neg (show ¬(true = false) by simp)]
  by_cases houts : cr.in_point + (t - cs) < 0 ∨ cr.in_point + (t - cs) > mi.duration
  · rw [if_pos houts]
    dsimp only
    constructor
    · intro heq; cases heq
    · rintro ⟨ha, hb⟩
      exfalso
      cases houts with
      | inl h => linarith
      | inr h => linarith
  · rw [if_neg houts]
    push_neg at houts
    exact ⟨fun _ => ⟨by linarith [houts.1], houts.2⟩, fun _ => rfl⟩

/-- Witness for C8's amended claim: for the clip renderer with trim window
`[2, 5)` over media of duration 20, seeking timeline time 13 against clip
start 5 succeeds because the computed source time 10 is within media bounds. -/
theorem seek_to_time_spec_witness :
    Ex.cr8.seek_to_time 13 5 = .ok () :=
  (seek_to_time_spec Ex.cr8 13 5 { path := "p", duration := 20 } rfl rfl).mpr
    ⟨by norm_num [Ex.cr8], by norm_num [Ex.cr8]⟩

/-- C8 counterexample: the same seek computes `source_time = 2 + (13 - 5) = 10`,
which lies *outside* the clip's trimmed window `[2, 5)`
(`in_point = 2`, clip duration `out_point - in_point = 3`), yet `seek_to_time`
succeeds — the decoder seek is issued and no window guard exists, refuting the
claim that such seeks fail. -/
theorem seek_to_time_outside_window_succeeds :
    Ex.cr8.seek_to_time 13 5 = .ok () ∧
    Ex.cr8.in_point + ((13 : ℚ) - 5) = 10 ∧
    ¬(Ex.cr8.in_point ≤ 10 ∧ (10 : ℚ) < Ex.cr8.out_point) := by
  refine ⟨(seek_to_time_spec Ex.cr8 13 5 { path := "p", duration := 20 } rfl rfl).mpr
    ⟨by norm_num [Ex.cr8], by norm_num [Ex.cr8]⟩, by norm_num [Ex.cr8], ?_⟩
  rintro ⟨h1, h2⟩
  norm_num [Ex.cr8] at h2

/-- If the clip loop of `render_frame` completed, every active video clip that
holds a clip renderer decoded successfully (the `?` on seek/decode would have
aborted it otherwise). -/
theorem processTrack_ok_all (r : Render.TimelineRenderer)
    (dec : ℚ → String → Except Render.TimelineRendererError Render.VideoFrame) (time : ℚ)
    (clips : List Engine.Clip) (data data' : List ℕ) (log log' : List String)
    (h : Render.processTrack r dec time clips data log = .ok (data', log')) :
    ∀ c ∈ clips, c.clip_type = Engine.ClipType.video → c.id ∈ r.clip_renderers →
      ∃ vf, dec time c.id = .ok vf := by
  induction clips generalizing data log with
  | nil => intro c hc; cases hc
  | cons clip rest ih =>
    intro c hc hv hr
    unfold Render.processTrack at h
    by_cases hcond : clip.clip_type = Engine.ClipType.video ∧ clip.id ∈ r.clip_renderers
    · rw [if_pos hcond] at h
      cases hdec : dec time clip.id with
      | error e => rw [hdec] at h; cases h
      | ok vf =>
        rw [hdec] at h
        dsimp only at h
        cases List.mem_cons.mp hc with
        | inl he => subst he; exact ⟨vf, hdec⟩
        | inr ht => exact ih _ _ h c ht hv hr
    · rw [if_neg hcond] at h
      cases List.mem_cons.mp hc with
      | inl he => subst he; exact absurd ⟨hv, hr⟩ hcond
      | inr ht => exact ih _ _ h c ht hv hr

/-- Track-list version of `processTrack_ok_all`. -/
theorem processTracks_ok_all (r : Render.TimelineRenderer)
    (dec : ℚ → String → Except Render.TimelineRendererError Render.VideoFrame) (time : ℚ)
    (tracks : List (String × List Engine.Clip)) (data data' : List ℕ) (log log' : List String)
    (h : Render.processTracks r dec time tracks data log = .ok (data', log')) :
    ∀ p ∈ tracks, ∀ c ∈ p.2, c.clip_type = Engine.ClipType.video →
      c.id ∈ r.clip_renderers → ∃ vf, dec time c.id = .ok vf := by
  induction tracks generalizing data log with
  | nil => intro p hp; cases hp
  | cons pr rest ih =>
    intro p hp c hc hv hr
    obtain ⟨tid, clips⟩ := pr
    unfold Render.processTracks at h
    cases hpt : Render.processTrack r dec time clips data log with
    | error e => rw [hpt] at h; cases h
    | ok pr2 =>
      obtain ⟨d2, l2⟩ := pr2
      rw [hpt] at h
      dsimp only at h
      cases List.mem_cons.mp hp with
      | inl he =>
        subst he
        exact processTrack_ok_all r dec time clips data d2 log l2 hpt c hc hv hr
      | inr ht => exact ih _ _ h p ht c hc hv hr

/-- C6 (amended): when any active video clip holding a clip renderer fails to
decode, `render_frame` returns an error for the whole frame — the `?` on
`seek_to_time`/`decode_frame` propagates the failure instead of skipping the
layer and compositing the rest. -/
theorem render_frame_propagates_decode_failure (r : Render.TimelineRenderer)
    (dec : ℚ → String → Except Render.TimelineRendererError Render.VideoFrame)
    (post : List ℕ → List ℕ) (time : ℚ)
    (hmiss : Render.lookupCache r.frame_cache time = none)
    (hfail : ∃ p ∈ r.timeline.active_clips, ∃ c ∈ p.2,
      c.clip_type = Engine.ClipType.video ∧ c.id ∈ r.clip_renderers ∧
      ∀ vf, dec time c.id ≠ .ok vf) :
    ∃ e, Render.render_frame r dec post time = .error e := by
  unfold Render.render_frame
  by_cases hinit : r.is_init = false
  · rw [if_pos hinit]
    exact ⟨_, rfl⟩
  · rw [if_neg hinit, hmiss]
    dsimp only
    cases hpt : Render.processTracks r dec time r.timeline.active_clips
        (Render.initFrameData r.config) [] with
    | error e => exact ⟨e, rfl⟩
    | ok pr =>
      exfalso
      obtain ⟨d2, l2⟩ := pr
      obtain ⟨p, hp, c, hc, hv, hr, hne⟩ := hfail
      obtain ⟨vf, hvf⟩ :=
        processTracks_ok_all r dec time _ _ _ _ _ hpt p hp c hc hv hr
      exact hne vf hvf

/-- The active-clip list of the two-track example timeline at time 5. -/
theorem tl6_active_clips :
    Ex.tl6.active_clips = [("t1", [Ex.clipGood]), ("t2", [Ex.clipBad])] := by
  norm_num [Engine.Timeline.active_clips, Ex.tl6, Engine.Track.clips_at_time,
    Engine.Clip.contains_time, Engine.Clip.end_time, Ex.clipGood, Ex.clipBad,
    List.filterMap_cons, List.filter_cons]

/-- Witness for C6's amended claim: over the two-layer timeline where the clip
`"bad"` fails to decode, `render_frame` returns an error. -/
theorem render_frame_propagates_witness :
    ∃ e, Render.render_frame Ex.tr6 Ex.decodeBad Ex.postId 5 = .error e :=
  render_frame_propagates_decode_failure Ex.tr6 Ex.decodeBad Ex.postId 5 rfl
    ⟨("t2", [Ex.clipBad]), by rw [show Ex.tr6.timeline = Ex.tl6 from rfl, tl6_active_clips]; simp,
      Ex.clipBad, by simp, rfl, by simp [Ex.tr6, Ex.clipBad],
      by intro vf h; simp [Ex.decodeBad, Ex.clipBad] at h⟩

/-- Processing the failing track aborts with the decoder's error. -/
theorem processTrack_bad (data : List ℕ) (log : List String) :
    Render.processTrack Ex.tr6 Ex.decodeBad 5 [Ex.clipBad] data log =
      .error (.decoderError (.decodingError "boom")) := by
  unfold Render.processTrack
  rw [if_pos ⟨rfl, by simp [Ex.tr6, Ex.clipBad]⟩]
  have hd : Ex.decodeBad 5 Ex.clipBad.id =
      .error (.decoderError (.decodingError "boom")) := by
    simp [Ex.decodeBad, Ex.clipBad]
  rw [hd]

/-- Processing the decodable track composites its layer and logs the decode. -/
theorem processTrack_good (data : List ℕ) (log : List String) :
    Render.processTrack Ex.tr6 Ex.decodeBad 5 [Ex.clipGood] data log =
      .ok (Render.composite_frame Ex.rCfg data Ex.vf1, log ++ [Ex.clipGood.id]) := by
  unfold Render.processTrack
  rw [if_pos ⟨rfl, by simp [Ex.tr6, Ex.clipGood]⟩]
  have hd : Ex.decodeBad 5 Ex.clipGood.id = .ok Ex.vf1 := by
    simp [Ex.decodeBad, Ex.clipGood]
  rw [hd]
  dsimp only
  rfl

/-- C6 counterexample: on a timeline with one decodable layer (`"good"`) and
one failing layer (`"bad"`), `render_frame` returns the decode error for the
whole frame instead of skipping the failing layer and returning a frame built
from the remaining layers. -/
theorem render_frame_aborts_on_one_bad_layer :
    Render.render_frame Ex.tr6 Ex.decodeBad Ex.postId 5 =
      .error (.decoderError (.decodingError "boom")) ∧
    (∃ vf, Ex.decodeBad 5 Ex.clipGood.id = .ok vf) := by
  constructor
  · unfold Render.render_frame
    rw [if_neg (show ¬(Ex.tr6.is_init = false) by simp [Ex.tr6])]
    rw [show Render.lookupCache Ex.tr6.frame_cache 5 = none from rfl]
    dsimp only
    rw [show Ex.tr6.timeline = Ex.tl6 from rfl, tl6_active_clips]
    have hpt : Render.processTracks Ex.tr6 Ex.decodeBad 5
        [("t1", [Ex.clipGood]), ("t2", [Ex.clipBad])]
        (Render.initFrameData Ex.tr6.config) [] =
        .error (.decoderError (.decodingError "boom")) := by
      unfold Render.processTracks
      rw [processTrack_good]
      dsimp only
      unfold Render.processTracks
      rw [processTrack_bad]
    rw [hpt]
  · exact ⟨Ex.vf1, by simp [Ex.decodeBad, Ex.clipGood]⟩

/-- C7 (amended): `render_frame` consults the frame cache but never populates
it (the source comments at lines 236–237 note the frame cannot be inserted).
Starting from an empty cache, a successful call returns the renderer state
unchanged — the cache still empty — so a second identical call re-invokes the
decoders exactly as the first did (same decode log) and returns a bit-identical
buffer only because it recomputes it from scratch; it is not served from the
cache. -/
theorem render_frame_cache_never_populated (r : Render.TimelineRenderer)
    (dec : ℚ → String → Except Render.TimelineRendererError Render.VideoFrame)
    (post : List ℕ → List ℕ) (time : ℚ)
    (f : Render.Frame) (r' : Render.TimelineRenderer) (log : List String)
    (hcache : r.frame_cache = [])
    (h : Render.render_frame r dec post time = .ok (f, r', log)) :
    r' = r ∧ r'.frame_cache = [] ∧
      Render.render_frame r' dec post time = .ok (f, r', log) := by
  obtain ⟨cfg, tl, crs, fc, ii⟩ := r
  dsimp only at hcache
  subst hcache
  have h0 := h
  unfold Render.render_frame at h
  by_cases hinit : ii = false
  · rw [if_pos hinit] at h
    cases h
  · rw [if_neg hinit] at h
    rw [show Render.lookupCache
      (⟨cfg, tl, crs, [], ii⟩ : Render.TimelineRenderer).frame_cache time = none from rfl] at h
    dsimp only at h
    cases hpt : Render.processTracks ⟨cfg, tl, crs, [], ii⟩ dec time tl.active_clips
        (Render.initFrameData cfg) [] with
    | error e => rw [hpt] at h; cases h
    | ok pr =>
      obtain ⟨d2, l2⟩ := pr
      rw [hpt] at h
      dsimp only at h
      have hinj := Except.ok.inj h
      have hr' : r' = ⟨cfg, tl, crs, [], ii⟩ := by
        have h2 := congrArg (fun x => x.2.1) hinj
        dsimp only at h2
        rw [← h2]
        have hcc : (if ([] : List (ℚ × Render.Frame)).length ≥ cfg.cache_size then
            Render.evictMin [] else ([] : List (ℚ × Render.Frame))) =
            ([] : List (ℚ × Render.Frame)) := by
          split <;> rfl
        rw [hcc]
      refine ⟨hr', by rw [hr'], ?_⟩
      rw [hr'] at h0 ⊢
      exact h0

/-- The active-clip list of the single-track example timeline at time 5. -/
theorem tl7_active_clips :
    Ex.tl7.active_clips = [("t1", [Ex.clipGood])] := by
  norm_num [Engine.Timeline.active_clips, Ex.tl7, Engine.Track.clips_at_time,
    Engine.Clip.contains_time, Engine.Clip.end_time, Ex.clipGood,
    List.filterMap_cons, List.filter_cons]

/-- Processing the decodable track under the single-track renderer. -/
theorem processTrack_good7 (data : List ℕ) (log : List String) :
    Render.processTrack Ex.tr7 Ex.decodeAlways 5 [Ex.clipGood] data log =
      .ok (Render.composite_frame Ex.rCfg data Ex.vf1, log ++ [Ex.clipGood.id]) := by
  unfold Render.processTrack
  rw [if_pos ⟨rfl, by simp [Ex.tr7, Ex.clipGood]⟩]
  rw [show Ex.decodeAlways 5 Ex.clipGood.id = .ok Ex.vf1 from rfl]
  dsimp only
  rfl

/-- Concrete run: the first `render_frame` call over `tr7` decodes `"good"`,
composites, and returns with the cache still empty and the state unchanged. -/
theorem tr7_render_eval :
    Render.render_frame Ex.tr7 Ex.decodeAlways Ex.postId 5 =
      .ok (Ex.frame7, Ex.tr7, [Ex.clipGood.id]) := by
  unfold Render.render_frame
  rw [if_neg (show ¬(Ex.tr7.is_init = false) by simp [Ex.tr7])]
  rw [show Render.lookupCache Ex.tr7.frame_cache 5 = none from rfl]
  dsimp only
  rw [show Ex.tr7.timeline = Ex.tl7 from rfl, tl7_active_clips]
  have hpt : Render.processTracks Ex.tr7 Ex.decodeAlways 5 [("t1", [Ex.clipGood])]
      (Render.initFrameData Ex.tr7.config) [] =
      .ok (Render.composite_frame Ex.rCfg (Render.initFrameData Ex.tr7.config) Ex.vf1,
        [Ex.clipGood.id]) := by
    unfold Render.processTracks
    rw [processTrack_good7]
    rfl
  rw [hpt]
  dsimp only
  have hif : (if Ex.tr7.frame_cache.length ≥ Ex.tr7.config.cache_size then
      Render.evictMin Ex.tr7.frame_cache else Ex.tr7.frame_cache) =
      ([] : List (ℚ × Render.Frame)) := by
    rw [if_neg (by simp [Ex.tr7, Ex.rCfg])]
    rfl
  rw [hif]
  rfl

/-- C7 counterexample: the first call of `render_frame` at time 5 succeeds but
returns the renderer state *unchanged* with an empty cache — it does not
populate the cache — and its decode log `["good"]` is nonempty; since the
second call starts from the identical state, it performs the same nonempty
decode log instead of being served from the cache. -/
theorem render_frame_first_call_does_not_populate_cache :
    Render.render_frame Ex.tr7 Ex.decodeAlways Ex.postId 5 =
      .ok (Ex.frame7, Ex.tr7, [Ex.clipGood.id]) ∧
    Ex.tr7.frame_cache = [] ∧
    ([Ex.clipGood.id] : List String) ≠ [] := by
  exact ⟨tr7_render_eval, rfl, by simp⟩

/-- Witness for C7's amended claim at the concrete renderer `tr7`: the state is
returned unchanged, the cache stays empty, and the second call returns the
identical result (same buffer, same decode log). -/
theorem render_frame_cache_never_populated_witness :
    Ex.tr7 = Ex.tr7 ∧ Ex.tr7.frame_cache = [] ∧
      Render.render_frame Ex.tr7 Ex.decodeAlways Ex.postId 5 =
        .ok (Ex.frame7, Ex.tr7, [Ex.clipGood.id]) :=
  render_frame_cache_never_populated Ex.tr7 Ex.decodeAlways Ex.postId 5 Ex.frame7 Ex.tr7
    [Ex.clipGood.id] rfl tr7_render_eval

/-- Reading after `List.set`: the new value at an in-bounds written index,
otherwise the old byte. -/
theorem byteAt_set (l : List ℕ) (i k v : ℕ) :
    Render.byteAt (l.set i v) k = if i = k ∧ i < l.length then v else Render.byteAt l k := by
  induction l generalizing i k with
  | nil => simp [Render.byteAt]
  | cons a t ih =>
    cases i with
    | zero =>
      cases k with
      | zero => simp [Render.byteAt]
      | succ k => simp [Render.byteAt]
    | succ i =>
      cases k with
      | zero => simp [Render.byteAt]
      | succ k =>
        show Render.byteAt (t.set i v) k = _
        rw [ih i k]
        by_cases h : i = k ∧ i < t.length
        · rw [if_pos h, if_pos (by simp only [List.length_cons]; omega)]
        · rw [if_neg h, if_neg (by simp only [List.length_cons]; omega)]
          rfl

/-- `compositeCell` preserves the buffer length. -/
theorem compositeCell_length (cfg : Render.TimelineRendererConfig)
    (input : Render.VideoFrame) (yOff xOff y x : ℕ) (out : List ℕ) :
    (Render.compositeCell cfg input yOff xOff y x out).length = out.length := by
  unfold Render.compositeCell
  dsimp only
  split <;> simp

/-- `compositeRow` preserves the buffer length. -/
theorem compositeRow_length (cfg : Render.TimelineRendererConfig)
    (input : Render.VideoFrame) (yOff xOff y : ℕ) (n : ℕ) (out : List ℕ) :
    (Render.compositeRow cfg input yOff xOff y n out).length = out.length := by
  induction n generalizing out with
  | zero => rfl
  | succ n ih =>
    show (Render.compositeCell cfg input yOff xOff y n
      (Render.compositeRow cfg input yOff xOff y n out)).length = out.length
    rw [compositeCell_length, ih]

/-- `compositeRows` preserves the buffer length. -/
theorem compositeRows_length (cfg : Render.TimelineRendererConfig)
    (input : Render.VideoFrame) (yOff xOff : ℕ) (n : ℕ) (out : List ℕ) :
    (Render.compositeRows cfg input yOff xOff n out).length = out.length := by
  induction n generalizing out with
  | zero => rfl
  | succ n ih =>
    show (Render.compositeRow cfg input yOff xOff n (min input.width cfg.width)
      (Render.compositeRows cfg input yOff xOff n out)).length = out.length
    rw [compositeRow_length, ih]

/-- Row-major flattening is injective. -/
theorem rowmajor_inj {W u v a b : ℕ} (ha : a < W) (hb : b < W)
    (h : u * W + a = v * W + b) : u = v ∧ a = b := by
  have hW : 0 < W := lt_of_le_of_lt (Nat.zero_le a) ha
  have h1 : u = v := by
    have e1 : (W * u + a) / W = u := by
      rw [Nat.mul_add_div hW, Nat.div_eq_of_lt ha, Nat.add_zero]
    have e2 : (W * v + b) / W = v := by
      rw [Nat.mul_add_div hW, Nat.div_eq_of_lt hb, Nat.add_zero]
    rw [← e1, ← e2, Nat.mul_comm W u, Nat.mul_comm W v, h]
  subst h1
  exact ⟨rfl, by omega⟩

/-- The last channel byte of an in-bounds pixel lies inside the buffer. -/
theorem rowmajor_lt {W H r q : ℕ} (hr : r < H) (hq : q < W) :
    (r * W + q) * 4 + 3 < W * H * 4 := by
  have h1 : r * W + q < H * W := by
    have h2 : (r + 1) * W ≤ H * W := Nat.mul_le_mul_right W (by omega)
    have h3 : (r + 1) * W = r * W + W := by ring
    omega
  rw [Nat.mul_comm W H]
  omega

/-- A cell write never changes bytes outside its four channel positions. -/
theorem compositeCell_untouched (cfg : Render.TimelineRendererConfig)
    (input : Render.VideoFrame) (yOff xOff y x : ℕ) (out : List ℕ) (k : ℕ)
    (hk : ∀ c < 4, k ≠ Render.outIdx cfg yOff xOff y x c) :
    Render.byteAt (Render.compositeCell cfg input yOff xOff y x out) k =
      Render.byteAt out k := by
  have h0 := hk 0 (by omega)
  have h1 := hk 1 (by omega)
  have h2 := hk 2 (by omega)
  have h3 := hk 3 (by omega)
  simp only [Render.outIdx] at h0 h1 h2 h3
  unfold Render.compositeCell
  dsimp only
  split
  · rw [byteAt_set, if_neg (by simp only [List.length_set]; omega),
      byteAt_set, if_neg (by simp only [List.length_set]; omega),
      byteAt_set, if_neg (by simp only [List.length_set]; omega),
      byteAt_set, if_neg (by omega)]
  · rfl

/-- The cell write of loop iteration `(y, x)`, read back at channel `c`: the
alpha channel becomes opaque and each color channel is alpha-blended from the
previous output byte and the incoming pixel. -/
theorem compositeCell_touched (cfg : Render.TimelineRendererConfig)
    (input : Render.VideoFrame) (yOff xOff y x : ℕ) (out : List ℕ) (c : ℕ) (hc : c < 4)
    (hg1 : Render.outIdx cfg yOff xOff y x 3 < out.length)
    (hg2 : Render.inIdx input y x 3 < input.data.length) :
    Render.byteAt (Render.compositeCell cfg input yOff xOff y x out)
        (Render.outIdx cfg yOff xOff y x c) =
      (if c = 3 then 255 else
        Render.blend (Render.byteAt out (Render.outIdx cfg yOff xOff y x c))
          (Render.byteAt input.data (Render.inIdx input y x c))
          (Render.byteAt input.data (Render.inIdx input y x 3))) := by
  simp only [Render.outIdx, Render.inIdx] at hg1 hg2 ⊢
  unfold Render.compositeCell
  dsimp only
  rw [if_pos ⟨hg1, hg2⟩]
  interval_cases c
  · rw [if_neg (by omega),
      byteAt_set, if_neg (by simp only [List.length_set]; omega),
      byteAt_set, if_neg (by simp only [List.length_set]; omega),
      byteAt_set, if_neg (by simp only [List.length_set]; omega),
      byteAt_set, if_pos ⟨by omega, by omega⟩]
    rfl
  · rw [if_neg (by omega),
      byteAt_set, if_neg (by simp only [List.length_set]; omega),
      byteAt_set, if_neg (by simp only [List.length_set]; omega),
      byteAt_set, if_pos ⟨rfl, by simp only [List.length_set]; omega⟩,
      byteAt_set, if_neg (by omega)]
  · rw [if_neg (by omega),
      byteAt_set, if_neg (by simp only [List.length_set]; omega),
      byteAt_set, if_pos ⟨rfl, by simp only [List.length_set]; omega⟩,
      byteAt_set, if_neg (by simp only [List.length_set]; omega),
      byteAt_set, if_neg (by omega)]
  · rw [if_pos rfl,
      byteAt_set, if_pos ⟨rfl, by simp only [List.length_set]; omega⟩]

/-- A row pass never changes bytes outside its cells' positions. -/
theorem compositeRow_untouched (cfg : Render.TimelineRendererConfig)
    (input : Render.VideoFrame) (yOff xOff y k : ℕ) (n : ℕ) :
    ∀ out : List ℕ, (∀ x < n, ∀ c < 4, k ≠ Render.outIdx cfg yOff xOff y x c) →
      Render.byteAt (Render.compositeRow cfg input yOff xOff y n out) k =
        Render.byteAt out k := by
  induction n with
  | zero => intro out hk; rfl
  | succ n ih =>
    intro out hk
    show Render.byteAt (Render.compositeCell cfg input yOff xOff y n
      (Render.compositeRow cfg input yOff xOff y n out)) k = _
    rw [compositeCell_untouched cfg input yOff xOff y n _ k
      (fun c hc => hk n (by omega) c hc)]
    exact ih out (fun x hx c hc => hk x (by omega) c hc)

/-- Reading back the cell `(y, x)` after the whole row pass. -/
theorem compositeRow_touched (cfg : Render.TimelineRendererConfig)
    (input : Render.VideoFrame) (yOff xOff y : ℕ) (n : ℕ) :
    ∀ (out : List ℕ) (x c : ℕ), x < n → c < 4 →
      Render.outIdx cfg yOff xOff y x 3 < out.length →
      Render.inIdx input y x 3 < input.data.length →
      Render.byteAt (Render.compositeRow cfg input yOff xOff y n out)
          (Render.outIdx cfg yOff xOff y x c) =
        (if c = 3 then 255 else
          Render.blend (Render.byteAt out (Render.outIdx cfg yOff xOff y x c))
            (Render.byteAt input.data (Render.inIdx input y x c))
            (Render.byteAt input.data (Render.inIdx input y x 3))) := by
  induction n with
  | zero => intro out x c hx; exact absurd hx (by omega)
  | succ n ih =>
    intro out x c hx hc hg1 hg2
    show Render.byteAt (Render.compositeCell cfg input yOff xOff y n
      (Render.compositeRow cfg input yOff xOff y n out)) (Render.outIdx cfg yOff xOff y x c) = _
    by_cases hxn : x = n
    · subst hxn
      rw [compositeCell_touched cfg input yOff xOff y x _ c hc
        (by rw [compositeRow_length]; exact hg1) hg2]
      have hun : ∀ c' : ℕ, c' < 4 →
          Render.byteAt (Render.compositeRow cfg input yOff xOff y x out)
            (Render.outIdx cfg yOff xOff y x c') =
          Render.byteAt out (Render.outIdx cfg yOff xOff y x c') := by
        intro c' hc'
        refine compositeRow_untouched cfg input yOff xOff y _ x out ?_
        intro x' hx' c'' hc'' heq
        simp only [Render.outIdx] at heq
        omega
      rw [hun c hc]
    · have hx' : x < n := by omega
      rw [compositeCell_untouched cfg input yOff xOff y n _ _ ?_]
      · exact ih out x c hx' hc hg1 hg2
      · intro c' hc' heq
        simp only [Render.outIdx] at heq
        omega

/-- The rows pass never changes bytes outside the placed region. -/
theorem compositeRows_untouched (cfg : Render.TimelineRendererConfig)
    (input : Render.VideoFrame) (yOff xOff k : ℕ) (n : ℕ) :
    ∀ out : List ℕ,
      (∀ y < n, ∀ x < min input.width cfg.width, ∀ c < 4,
        k ≠ Render.outIdx cfg yOff xOff y x c) →
      Render.byteAt (Render.compositeRows cfg input yOff xOff n out) k =
        Render.byteAt out k := by
  induction n with
  | zero => intro out hk; rfl
  | succ n ih =>
    intro out hk
    show Render.byteAt (Render.compositeRow cfg input yOff xOff n (min input.width cfg.width)
      (Render.compositeRows cfg input yOff xOff n out)) k = _
    rw [compositeRow_untouched cfg input yOff xOff n k _ _
      (fun x hx c hc => hk n (by omega) x hx c hc)]
    exact ih out (fun y hy x hx c hc => hk y (by omega) x hx c hc)

/-- Reading back pixel `(y, x)`, channel `c`, after the whole rows pass. -/
theorem compositeRows_touched (cfg : Render.TimelineRendererConfig)
    (input : Render.VideoFrame) (yOff xOff : ℕ)
    (hbW : ∀ x' < min input.width cfg.width, x' + xOff < cfg.width)
    (hbH : ∀ y' < min input.height cfg.height, y' + yOff < cfg.height)
    (n : ℕ) (hn : n ≤ min input.height cfg.height) :
    ∀ (out : List ℕ) (y x c : ℕ), y < n → x < min input.width cfg.width → c < 4 →
      out.length = cfg.width * cfg.height * 4 →
      input.data.length = input.width * input.height * 4 →
      Render.byteAt (Render.compositeRows cfg input yOff xOff n out)
          (Render.outIdx cfg yOff xOff y x c) =
        (if c = 3 then 255 else
          Render.blend (Render.byteAt out (Render.outIdx cfg yOff xOff y x c))
            (Render.byteAt input.data (Render.inIdx input y x c))
            (Render.byteAt input.data (Render.inIdx input y x 3))) := by
  induction n with
  | zero => intro out y x c hy; exact absurd hy (by omega)
  | succ n ih =>
    intro out y x c hy hx hc hout hin
    have hg1 : Render.outIdx cfg yOff xOff y x 3 < out.length := by
      rw [hout]
      exact rowmajor_lt (hbH y (by omega)) (hbW x hx)
    have hg2 : Render.inIdx input y x 3 < input.data.length := by
      rw [hin]
      exact rowmajor_lt (by omega : y < input.height) (by omega : x < input.width)
    show Render.byteAt (Render.compositeRow cfg input yOff xOff n (min input.width cfg.width)
      (Render.compositeRows cfg input yOff xOff n out)) (Render.outIdx cfg yOff xOff y x c) = _
    by_cases hyn : y = n
    · subst hyn
      rw [compositeRow_touched cfg input yOff xOff y (min input.width cfg.width) _ x c hx hc
        (by rw [compositeRows_length]; exact hg1) hg2]
      have hun : ∀ c' : ℕ, c' < 4 →
          Render.byteAt (Render.compositeRows cfg input yOff xOff y out)
            (Render.outIdx cfg yOff xOff y x c') =
          Render.byteAt out (Render.outIdx cfg yOff xOff y x c') := by
        intro c' hc'
        refine compositeRows_untouched cfg input yOff xOff _ y out ?_
        intro y' hy' x' hx' c'' hc'' heq
        simp only [Render.outIdx] at heq
        have hu : (y + yOff) * cfg.width + (x + xOff) =
            (y' + yOff) * cfg.width + (x' + xOff) := by omega
        have := (rowmajor_inj (hbW x hx) (hbW x' hx') hu).1
        omega
      rw [hun c hc]
    · have hy' : y < n := by omega
      rw [compositeRow_untouched cfg input yOff xOff n _ _ _ ?_]
      · exact ih (by omega) out y x c hy' hx hc hout hin
      · intro x' hx' c'' hc'' heq
        simp only [Render.outIdx] at heq
        have hu : (y + yOff) * cfg.width + (x + xOff) =
            (n + yOff) * cfg.width + (x' + xOff) := by omega
        have := (rowmajor_inj (hbW x hx) (hbW x' hx') hu).1
        omega

/-- The centered-and-clipped horizontal placement stays inside the output. -/
theorem xoff_lt (cfg : Render.TimelineRendererConfig) (input : Render.VideoFrame)
    (x : ℕ) (hx : x < min input.width cfg.width) :
    x + Render.xOffOf cfg input < cfg.width := by
  unfold Render.xOffOf
  by_cases h : cfg.width > input.width
  · rw [if_pos h]
    have hx' : x < input.width := lt_of_lt_of_le hx (min_le_left _ _)
    omega
  · rw [if_neg h]
    have hx' : x < cfg.width := lt_of_lt_of_le hx (min_le_right _ _)
    omega

/-- The centered-and-clipped vertical placement stays inside the output. -/
theorem yoff_lt (cfg : Render.TimelineRendererConfig) (input : Render.VideoFrame)
    (y : ℕ) (hy : y < min input.height cfg.height) :
    y + Render.yOffOf cfg input < cfg.height := by
  unfold Render.yOffOf
  by_cases h : cfg.height > input.height
  · rw [if_pos h]
    have hy' : y < input.height := lt_of_lt_of_le hy (min_le_left _ _)
    omega
  · rw [if_neg h]
    have hy' : y < cfg.height := lt_of_lt_of_le hy (min_le_right _ _)
    omega

/-- C9: `composite_frame` places the incoming frame centered (clipped to the
output bounds) and, for every output pixel `(px, py)` and channel `c`: inside
the placed region the color channels become
`out = (1 - α) * out + α * in` with `α` read from the incoming frame's alpha
channel (exact-arithmetic reading of the f32 blend, truncated), and the alpha
channel is forced fully opaque; every pixel outside the placed region is
unchanged. -/
theorem composite_frame_spec (cfg : Render.TimelineRendererConfig) (out : List ℕ)
    (input : Render.VideoFrame)
    (hout : out.length = cfg.width * cfg.height * 4)
    (hin : input.data.length = input.width * input.height * 4)
    (px py c : ℕ) (hpx : px < cfg.width) (hpy : py < cfg.height) (hc : c < 4) :
    (Render.placed cfg input px py →
      Render.byteAt (Render.composite_frame cfg out input) ((py * cfg.width + px) * 4 + c) =
        (if c = 3 then 255 else
          Render.blend (Render.byteAt out ((py * cfg.width + px) * 4 + c))
            (Render.byteAt input.data
              (((py - Render.yOffOf cfg input) * input.width +
                (px - Render.xOffOf cfg input)) * 4 + c))
            (Render.byteAt input.data
              (((py - Render.yOffOf cfg input) * input.width +
                (px - Render.xOffOf cfg input)) * 4 + 3)))) ∧
    (¬ Render.placed cfg input px py →
      Render.byteAt (Render.composite_frame cfg out input) ((py * cfg.width + px) * 4 + c) =
        Render.byteAt out ((py * cfg.width + px) * 4 + c)) := by
  constructor
  · rintro ⟨ha, hb, hc2, hd⟩
    have hxeq : (px - Render.xOffOf cfg input) + Render.xOffOf cfg input = px :=
      Nat.sub_add_cancel ha
    have hyeq : (py - Render.yOffOf cfg input) + Render.yOffOf cfg input = py :=
      Nat.sub_add_cancel hc2
    have hkey : (py * cfg.width + px) * 4 + c =
        Render.outIdx cfg (Render.yOffOf cfg input) (Render.xOffOf cfg input)
          (py - Render.yOffOf cfg input) (px - Render.xOffOf cfg input) c := by
      simp only [Render.outIdx]
      rw [hxeq, hyeq]
    rw [hkey]
    unfold Render.composite_frame
    rw [compositeRows_touched cfg input (Render.yOffOf cfg input) (Render.xOffOf cfg input)
      (fun x' hx' => xoff_lt cfg input x' hx')
      (fun y' hy' => yoff_lt cfg input y' hy')
      (min input.height cfg.height) (le_refl _)
      out _ _ c (by omega) (by omega) hc hout hin]
    rw [← hkey]
    rfl
  · intro hnp
    unfold Render.composite_frame
    refine compositeRows_untouched cfg input (Render.yOffOf cfg input)
      (Render.xOffOf cfg input) _ _ out ?_
    intro y hy x hx c' hc' heq
    simp only [Render.outIdx] at heq
    have hu : py * cfg.width + px =
        (y + Render.yOffOf cfg input) * cfg.width + (x + Render.xOffOf cfg input) := by
      omega
    have hinj := rowmajor_inj hpx (xoff_lt cfg input x hx) hu
    exact hnp ⟨by omega, by omega, by omega, by omega⟩

/-- Witness for C9, at the 2×2 output with the 1×1 half-transparent input
placed at offset 0: channel 0 of pixel `(0,0)` is alpha-blended. -/
theorem composite_frame_spec_witness :
    Render.byteAt (Render.composite_frame Ex.rCfg (Render.initFrameData Ex.rCfg) Ex.vf1)
        ((0 * Ex.rCfg.width + 0) * 4 + 0) =
      (if (0 : ℕ) = 3 then 255 else
        Render.blend
          (Render.byteAt (Render.initFrameData Ex.rCfg) ((0 * Ex.rCfg.width + 0) * 4 + 0))
          (Render.byteAt Ex.vf1.data
            (((0 - Render.yOffOf Ex.rCfg Ex.vf1) * Ex.vf1.width +
              (0 - Render.xOffOf Ex.rCfg Ex.vf1)) * 4 + 0))
          (Render.byteAt Ex.vf1.data
            (((0 - Render.yOffOf Ex.rCfg Ex.vf1) * Ex.vf1.width +
              (0 - Render.xOffOf Ex.rCfg Ex.vf1)) * 4 + 3))) :=
  (composite_frame_spec Ex.rCfg (Render.initFrameData Ex.rCfg) Ex.vf1 (by decide) (by decide)
      0 0 0 (by decide) (by decide) (by decide)).1
    (by refine ⟨by decide, by decide, by decide, by decide⟩)
